import Mathlib

/-
  Verification of the request controller of ajmyyra/docker-fpm
  (pkg/fpm/controller.go), shallowly embedded in Lean 4.

  The Docker runtime client (pkg/docker) is modelled as an oracle of pure
  functions: each runtime call either succeeds with its result (`some`) or
  fails (`none`).  The controller state keeps the fields of Go's
  `ReqController` that the logic reads or writes (Config, Containers,
  ContainerNo); the mutex, the docker handle and the informational LastReq
  timestamp carry no pool logic and are dropped.  A Go panic (out-of-bounds
  slice index) is modelled as `none` at the top level of `serveHTTP`.
-/

namespace DockerFpm

/-- The `Container` record of controller.go: name, runtime id, started flag,
dirty flag, last known network address. -/
structure Container where
  Name : String
  Id : String
  Started : Bool
  Dirty : Bool
  IPAddr : String
deriving DecidableEq, Repr, Inhabited

/-- The `ControllerConfig` record of controller.go.  Go's field `Type` is a
reserved word in Lean and is rendered `CtrlType`. -/
structure ControllerConfig where
  Deployment : String
  ContainerImage : String
  ContainerImageTag : String
  ContainerPort : Nat
  ContainerAmount : Nat
  CtrlType : String
  DynIdleSeconds : Nat
deriving DecidableEq, Repr, Inhabited

/-- `const DynamicController = "dynamic"` in controller.go. -/
def DynamicController : String := "dynamic"

/-- `const StaticController = "static"` in controller.go. -/
def StaticController : String := "static"

/-- The runtime client (pkg/docker Client) as a pure oracle: every call
either fails (`none`) or succeeds with its result.  `createContainer` takes
name, image and deployment label and yields the container id;
`containerDetails` yields the network address used by the controller. -/
structure DockerClient where
  createContainer : String → String → String → Option String
  startContainer : String → Option Unit
  containerDetails : String → Option String
  stopContainer : String → Option Unit
  killContainer : String → Option Unit
  removeContainer : String → Option Unit

/-- The mutable controller state (`ReqController` in controller.go) that the
pool logic reads and writes. -/
structure ReqController where
  Config : ControllerConfig
  Containers : List Container
  ContainerNo : Nat
deriving DecidableEq, Repr, Inhabited

/-- A call made to the docker runtime, for tracing which containers a
lifecycle loop touched. -/
inductive DockerAction where
  | start (id : String)
  | inspect (id : String)
  | kill (id : String)
  | remove (id : String)
deriving DecidableEq, Repr

/-- `containerImageName` of controller.go: `fmt.Sprintf("%s:%s", image, tag)`.
It reads only the immutable config, so it takes the config directly. -/
def containerImageName (c : ControllerConfig) : String :=
  c.ContainerImage ++ ":" ++ c.ContainerImageTag

/-- The container name synthesized by `createNewContainer`:
`fmt.Sprintf("%s-%d", deployment, n)`. -/
def containerName (deployment : String) (n : Nat) : String :=
  deployment ++ "-" ++ toString n

/-- `createNewContainer` of controller.go: increment the sequence counter
first (so a failed creation still consumes the number), ask the runtime to
create a container with the synthesized name, and on success append a fresh
entry (`Started=false`, `Dirty=false`, empty address) to the pool.  The Bool
is `false` exactly when the runtime call failed (the error return). -/
def createNewContainer (cli : DockerClient) (s : ReqController) :
    ReqController × Bool :=
  match cli.createContainer (containerName s.Config.Deployment (s.ContainerNo + 1))
      (containerImageName s.Config) s.Config.Deployment with
  | none => ({ s with ContainerNo := s.ContainerNo + 1 }, false)
  | some cid =>
      ({ s with
           ContainerNo := s.ContainerNo + 1,
           Containers := s.Containers ++
             [{ Name := containerName s.Config.Deployment (s.ContainerNo + 1),
                Id := cid, Started := false, Dirty := false,
                IPAddr := "" }] }, true)

/-- The creation loop of `Init` in controller.go: `ContainerAmount` calls to
`createNewContainer`, aborting on the first error with no rollback. -/
def provision (cli : DockerClient) : Nat → ReqController → ReqController × Bool
  | 0, s => (s, true)
  | n + 1, s =>
      match createNewContainer cli s with
      | (s1, false) => (s1, false)
      | (s1, true) => provision cli n s1

/-- `startContainers` of controller.go: iterate the pool in order; skip
entries already started; otherwise start the container, inspect it for its
address, and update the entry in place (`Started=true`, address set).  The
first failing call returns the error, leaving that entry and all later ones
unchanged (a started container whose inspect fails keeps `Started=false`).
Also returns the trace of runtime calls made. -/
def startContainers (cli : DockerClient) :
    List Container → List Container × List DockerAction × Bool
  | [] => ([], [], true)
  | c :: rest =>
      if c.Started then
        let r := startContainers cli rest
        (c :: r.1, r.2.1, r.2.2)
      else
        match cli.startContainer c.Id with
        | none => (c :: rest, [DockerAction.start c.Id], false)
        | some _ =>
            match cli.containerDetails c.Id with
            | none =>
                (c :: rest,
                 [DockerAction.start c.Id, DockerAction.inspect c.Id], false)
            | some details =>
                let c' : Container :=
                  { c with IPAddr := details, Started := true }
                let r := startContainers cli rest
                (c' :: r.1,
                 DockerAction.start c.Id :: DockerAction.inspect c.Id :: r.2.1,
                 r.2.2)

/-- The in-place update done by `stopContainers` on success:
`c.Started = false; c.IPAddr = ""`. -/
def stopOne (c : Container) : Container :=
  { c with Started := false, IPAddr := "" }

/-- `stopContainers` of controller.go: iterate in order; skip entries not
started; attempt a graceful stop; if it fails and `hard` is false propagate
the error, if it fails and `hard` is true escalate to a kill (propagating a
kill error); on success (graceful or forced) clear `Started` and the
address.  An error leaves the failing entry and all later ones unchanged. -/
def stopContainers (cli : DockerClient) (hard : Bool) :
    List Container → List Container × Bool
  | [] => ([], true)
  | c :: rest =>
      if !c.Started then
        let r := stopContainers cli hard rest
        (c :: r.1, r.2)
      else
        match cli.stopContainer c.Id with
        | some _ =>
            let r := stopContainers cli hard rest
            (stopOne c :: r.1, r.2)
        | none =>
            if !hard then (c :: rest, false)
            else
              match cli.killContainer c.Id with
              | none => (c :: rest, false)
              | some _ =>
                  let r := stopContainers cli hard rest
                  (stopOne c :: r.1, r.2)

/-- `cleanupContainers` of controller.go: iterate in order; if an entry is
started, force-kill it first; then remove it; any failing call aborts the
loop.  The pool slice itself is never written; the observable behavior is
the trace of runtime calls, which we return together with success. -/
def cleanupContainers (cli : DockerClient) :
    List Container → List DockerAction × Bool
  | [] => ([], true)
  | c :: rest =>
      if c.Started then
        match cli.killContainer c.Id with
        | none => ([DockerAction.kill c.Id], false)
        | some _ =>
            match cli.removeContainer c.Id with
            | none => ([DockerAction.kill c.Id, DockerAction.remove c.Id], false)
            | some _ =>
                let r := cleanupContainers cli rest
                (DockerAction.kill c.Id :: DockerAction.remove c.Id :: r.1, r.2)
      else
        match cli.removeContainer c.Id with
        | none => ([DockerAction.remove c.Id], false)
        | some _ =>
            let r := cleanupContainers cli rest
            (DockerAction.remove c.Id :: r.1, r.2)

/-- The readiness test of `getRandomContainer`:
`!candidate.Dirty && candidate.Started`. -/
def isReady (c : Container) : Bool := !c.Dirty && c.Started

/-- `getRandomContainer` of controller.go.  The `rand.Intn(amount)` draws
are modelled by an arbitrary source `rand : Nat → Nat`, reduced into range
by `% amount` (attempt `a` draws index `rand a % amount`).  Empty pool is an
error (`none`); otherwise up to `ContainerAmount` random probes are made and
the first ready candidate returned; if none hits, a linear scan in pool
order returns the first ready entry; if that finds nothing the call errors.
`probePhase` is the probe loop alone. -/
def probePhase (rand : Nat → Nat) (s : ReqController) : Option Container :=
  (List.range s.Config.ContainerAmount).findSome? (fun attempt =>
    let candidate := s.Containers.getD (rand attempt % s.Containers.length) default
    if isReady candidate then some candidate else none)

/-- The two-phase body of `getRandomContainer`: the probe loop, then the
linear fallback scan, then the "all containers are either shut down or
marked as dirty" error. -/
def getRandomContainer (rand : Nat → Nat) (s : ReqController) :
    Option Container :=
  if s.Containers.length = 0 then none
  else
    match probePhase rand s with
    | some c => some c
    | none => s.Containers.find? (fun c => isReady c)

/-- `setContainerDirty` of controller.go: scan the pool and set the `Dirty`
flag of every entry whose id matches (the loop has no break); entries with a
different id are untouched, and a non-matching id is a no-op. -/
def setContainerDirty (id : String) (cs : List Container) : List Container :=
  cs.map (fun c => if c.Id = id then { c with Dirty := true } else c)

/-- An HTTP header set: an association list from (canonical) header key to
its ordered list of values, mirroring Go's `http.Header` map.  Keys are
unique in a well-formed header, but nothing below depends on that. -/
abbrev Header : Type := List (String × List String)

/-- `http.Header.Add`: append the value to the slice stored under the key,
creating the key if absent. -/
def headerAdd (h : Header) (k v : String) : Header :=
  match h with
  | [] => [(k, [v])]
  | (k', vs) :: rest =>
      if k' = k then (k', vs ++ [v]) :: rest
      else (k', vs) :: headerAdd rest k v

/-- The inner loop of `copyHeader`: `for _, v := range vv { dst.Add(k, v) }`. -/
def addAll (dst : Header) (k : String) : List String → Header
  | [] => dst
  | v :: vs => addAll (headerAdd dst k v) k vs

/-- `copyHeader` of controller.go: for every key of the source header, add
every one of its values to the destination (Go iterates the map in an
unspecified order; here the list order stands in for one such order, and the
properties proved below are order-independent counts). -/
def copyHeader (dst : Header) : Header → Header
  | [] => dst
  | (k, vs) :: rest => copyHeader (addAll dst k vs) rest

/-- How many times the pair (k, v) occurs in a header set: occurrences of v
among the values stored under k, summed over duplicate keys. -/
def countPair (h : Header) (k v : String) : Nat :=
  match h with
  | [] => 0
  | (k', vs) :: rest => (if k' = k then vs.count v else 0) + countPair rest k v

/-- The response of a backend container to a proxied request, as the router
consumes it: status code, headers, body. -/
structure BackendResponse where
  status : Nat
  headers : Header
  body : String
deriving Repr

/-- What the router writes back to the client: an error status alone
(`w.WriteHeader(code)` and return), or the proxied status with the merged
headers and the streamed body. -/
inductive ServeResult where
  | errorStatus (code : Nat)
  | success (status : Nat) (headers : Header) (body : String)
deriving Repr

/-- `ServeHTTP` of controller.go, one request.  Oracles: `rand` feeds the
selection probes; `newReqOk` is whether `http.NewRequest` succeeds;
`dispatch` is the HTTP client round trip to the chosen container (`none` is
a transport error); `hdrs` is the outbound `w.Header()` before the copy.
The result is `none` exactly when the Go code panics: in dynamic mode the
dormancy check reads `s.Containers[0]` before any emptiness test, which is
out of bounds on an empty pool.  Otherwise: a dormant dynamic pool is
started (a failure answers 500 with the partially started pool kept); a
container is selected (failure: 500); the request is built (failure: 500)
and dispatched (failure: mark the chosen container dirty and answer 502);
on success the backend headers are added to the outbound ones and the
backend status and body returned.
`dormantCheck` is the dormancy test alone: in dynamic mode it reads
`s.Containers[0]` unconditionally, which panics (`none`) on an empty pool;
in static mode no start is needed (`some false`). -/
def dormantCheck (s : ReqController) : Option Bool :=
  if s.Config.CtrlType = DynamicController then
    match s.Containers[0]? with
    | none => none
    | some c0 => some (!c0.Started)
  else some false

/-- Steps 3-6 of `ServeHTTP` (selection, request construction, dispatch,
response writing), on the pool state `s1` reached after any wake-up. -/
def routeStep (rand : Nat → Nat) (newReqOk : Bool)
    (dispatch : Container → Option BackendResponse) (hdrs : Header)
    (s1 : ReqController) : ReqController × ServeResult :=
  match getRandomContainer rand s1 with
  | none => (s1, ServeResult.errorStatus 500)
  | some chosen =>
      if newReqOk = false then
        (s1, ServeResult.errorStatus 500)
      else
        match dispatch chosen with
        | none =>
            ({ s1 with
                 Containers := setContainerDirty chosen.Id s1.Containers },
             ServeResult.errorStatus 502)
        | some res =>
            (s1,
             ServeResult.success res.status
               (copyHeader hdrs res.headers) res.body)

/-- The remainder of `ServeHTTP` once the dormancy check has produced a
value; this part always answers (it has no panic site). -/
def serveAfterCheck (cli : DockerClient) (rand : Nat → Nat) (newReqOk : Bool)
    (dispatch : Container → Option BackendResponse) (hdrs : Header)
    (s : ReqController) (needStart : Bool) : ReqController × ServeResult :=
  let step1 : ReqController × Bool :=
    if needStart then
      let r := startContainers cli s.Containers
      ({ s with Containers := r.1 }, r.2.2)
    else (s, true)
  if step1.2 = false then
    (step1.1, ServeResult.errorStatus 500)
  else
    routeStep rand newReqOk dispatch hdrs step1.1

def serveHTTP (cli : DockerClient) (rand : Nat → Nat) (newReqOk : Bool)
    (dispatch : Container → Option BackendResponse) (hdrs : Header)
    (s : ReqController) : Option (ReqController × ServeResult) :=
  match dormantCheck s with
  | none => none
  | some needStart =>
      some (serveAfterCheck cli rand newReqOk dispatch hdrs s needStart)

/-! ## Selection: claim C1 -/

lemma mem_getD_mod (cs : List Container) (n : Nat) (h0 : cs.length ≠ 0) :
    cs.getD (n % cs.length) default ∈ cs := by
  have hlt : n % cs.length < cs.length := Nat.mod_lt _ (Nat.pos_of_ne_zero h0)
  rw [List.getD_eq_getElem?_getD, List.getElem?_eq_getElem hlt]
  simp only [Option.getD_some]
  exact List.getElem_mem hlt

lemma probePhase_some_spec (rand : Nat → Nat) (s : ReqController)
    (c : Container) (h0 : s.Containers.length ≠ 0)
    (h : probePhase rand s = some c) :
    c ∈ s.Containers ∧ isReady c = true := by
  obtain ⟨a, _, ha⟩ := List.exists_of_findSome?_eq_some h
  dsimp only at ha
  by_cases hr : isReady (s.Containers.getD (rand a % s.Containers.length) default) = true
  · rw [if_pos hr] at ha
    cases ha
    exact ⟨mem_getD_mod s.Containers (rand a) h0, hr⟩
  · rw [if_neg hr] at ha
    cases ha

lemma probePhase_eq_none_of_no_ready (rand : Nat → Nat) (s : ReqController)
    (h0 : s.Containers.length ≠ 0)
    (hall : ∀ c ∈ s.Containers, isReady c = false) :
    probePhase rand s = none := by
  rw [probePhase, List.findSome?_eq_none_iff]
  intro a _
  dsimp only
  rw [if_neg]
  rw [hall _ (mem_getD_mod s.Containers (rand a) h0)]
  simp

lemma getRandomContainer_some_spec (rand : Nat → Nat) (s : ReqController)
    (c : Container) (h : getRandomContainer rand s = some c) :
    c ∈ s.Containers ∧ isReady c = true := by
  rw [getRandomContainer] at h
  by_cases h0 : s.Containers.length = 0
  · rw [if_pos h0] at h
    cases h
  · rw [if_neg h0] at h
    cases hp : probePhase rand s with
    | some c' =>
        rw [hp] at h
        have hcc : c' = c := by simpa using h
        subst hcc
        exact probePhase_some_spec rand s c' h0 hp
    | none =>
        rw [hp] at h
        exact ⟨List.mem_of_find?_eq_some h, List.find?_some h⟩

lemma getRandomContainer_none_iff (rand : Nat → Nat) (s : ReqController) :
    getRandomContainer rand s = none ↔
      s.Containers = [] ∨ ∀ c ∈ s.Containers, isReady c = false := by
  constructor
  · intro h
    rw [getRandomContainer] at h
    by_cases h0 : s.Containers.length = 0
    · exact Or.inl (List.length_eq_zero.mp h0)
    · rw [if_neg h0] at h
      refine Or.inr ?_
      cases hp : probePhase rand s with
      | some c' => rw [hp] at h; cases h
      | none =>
          rw [hp] at h
          intro c hc
          have := List.find?_eq_none.mp h c hc
          simpa using this
  · intro h
    rcases h with h | h
    · rw [getRandomContainer, if_pos (by rw [h]; rfl)]
    · by_cases h0 : s.Containers.length = 0
      · rw [getRandomContainer, if_pos h0]
      · rw [getRandomContainer, if_neg h0,
            probePhase_eq_none_of_no_ready rand s h0 h]
        rw [List.find?_eq_none]
        intro c hc
        rw [h c hc]
        simp

/-- Claim C1: on any pool, `getRandomContainer` fails exactly when the pool
is empty or no entry is ready (started and not dirty); whenever it returns a
container, that container is a ready member of the pool — regardless of
which indices the random probes draw — and on a pool whose only ready entry
is `c0`, every call returns `c0`. -/
theorem getRandomContainer_spec (rand : Nat → Nat) (s : ReqController) :
    (getRandomContainer rand s = none ↔
       s.Containers = [] ∨ ∀ c ∈ s.Containers, isReady c = false)
  ∧ (∀ c, getRandomContainer rand s = some c →
       c ∈ s.Containers ∧ isReady c = true)
  ∧ (∀ c0, c0 ∈ s.Containers → isReady c0 = true →
       (∀ c ∈ s.Containers, isReady c = true → c = c0) →
       getRandomContainer rand s = some c0) := by
  refine ⟨getRandomContainer_none_iff rand s,
          fun c => getRandomContainer_some_spec rand s c, ?_⟩
  intro c0 hmem hready huniq
  cases hg : getRandomContainer rand s with
  | none =>
      rcases (getRandomContainer_none_iff rand s).mp hg with h | h
      · rw [h] at hmem
        cases hmem
      · rw [h c0 hmem] at hready
        cases hready
  | some c =>
      obtain ⟨hc, hr⟩ := getRandomContainer_some_spec rand s c hg
      rw [huniq c hc hr]

/-- A pool with one stopped entry and exactly one ready entry, for the C1
witness. -/
def poolC1 : ReqController :=
  { Config := { Deployment := "app", ContainerImage := "img",
                ContainerImageTag := "v1", ContainerPort := 9000,
                ContainerAmount := 2, CtrlType := "static",
                DynIdleSeconds := 60 },
    Containers :=
      [ { Name := "app-1", Id := "i1", Started := false, Dirty := false,
          IPAddr := "" },
        { Name := "app-2", Id := "i2", Started := true, Dirty := false,
          IPAddr := "10.0.0.2" } ],
    ContainerNo := 2 }

/-- Witness for C1: on `poolC1`, whose only ready entry is app-2, the
selection (with an arbitrary fixed random source) returns app-2. -/
theorem getRandomContainer_spec_witness :
    getRandomContainer (fun n => n) poolC1 =
      some { Name := "app-2", Id := "i2", Started := true, Dirty := false,
             IPAddr := "10.0.0.2" } :=
  (getRandomContainer_spec (fun n => n) poolC1).2.2 _ (by decide) (by decide)
    (by decide)

/-! ## Dispatch failure and dirty-marking: claim C2 -/

lemma setContainerDirty_getElem (id : String) (cs : List Container) (i : Nat) :
    (setContainerDirty id cs)[i]? =
      cs[i]?.map (fun c => if c.Id = id then { c with Dirty := true } else c) := by
  simp [setContainerDirty]

lemma setContainerDirty_id_dirty (id : String) (cs : List Container)
    (c : Container) (hc : c ∈ setContainerDirty id cs) (hid : c.Id = id) :
    c.Dirty = true := by
  simp only [setContainerDirty, List.mem_map] at hc
  obtain ⟨a, _, ha⟩ := hc
  by_cases h : a.Id = id
  · rw [if_pos h] at ha
    rw [← ha]
  · rw [if_neg h] at ha
    subst ha
    exact absurd hid h

lemma setContainerDirty_noop (id : String) (cs : List Container)
    (h : ∀ c ∈ cs, c.Id ≠ id) : setContainerDirty id cs = cs := by
  induction cs with
  | nil => rfl
  | cons a rest ih =>
      simp only [setContainerDirty, List.map_cons]
      rw [if_neg (h a (List.mem_cons_self a rest))]
      have := ih (fun c hc => h c (List.mem_cons_of_mem a hc))
      simp only [setContainerDirty] at this
      rw [this]

/-- Claim C2: when the proxied dispatch of a request fails, the router sets
the dirty flag of the selected container (every entry whose id matches) and
answers 502 (bad gateway); entries with another id are unchanged; a
subsequent selection on the resulting pool never returns a container with
the quarantined id; and dirty-marking an id that matches no entry is a
no-op.  The hypothesis `hnd` says the request needs no dynamic wake-up
(static mode, or the first entry already started), so the pool the failure
acts on is the original one. -/
theorem dispatch_failure_quarantines (cli : DockerClient)
    (rand rand2 : Nat → Nat) (dispatch : Container → Option BackendResponse)
    (hdrs : Header) (s : ReqController) (chosen : Container)
    (hnd : s.Config.CtrlType = DynamicController →
      ∃ c0, s.Containers[0]? = some c0 ∧ c0.Started = true)
    (hsel : getRandomContainer rand s = some chosen)
    (hfail : dispatch chosen = none) :
    (serveHTTP cli rand true dispatch hdrs s =
       some ({ s with Containers := setContainerDirty chosen.Id s.Containers },
             ServeResult.errorStatus 502))
  ∧ (∀ i : Nat, (setContainerDirty chosen.Id s.Containers)[i]? =
       s.Containers[i]?.map
         (fun c : Container =>
           if c.Id = chosen.Id then { c with Dirty := true } else c))
  ∧ (∀ r, getRandomContainer rand2
        { s with Containers := setContainerDirty chosen.Id s.Containers } =
          some r → r.Id ≠ chosen.Id)
  ∧ (∀ id cs, (∀ c ∈ cs, c.Id ≠ id) → setContainerDirty id cs = cs) := by
  refine ⟨?_, setContainerDirty_getElem chosen.Id s.Containers, ?_,
          setContainerDirty_noop⟩
  · by_cases hd : s.Config.CtrlType = DynamicController
    · obtain ⟨c0, h0, hst⟩ := hnd hd
      simp [serveHTTP, dormantCheck, serveAfterCheck, routeStep, hd, h0, hst, hsel, hfail]
    · simp [serveHTTP, dormantCheck, serveAfterCheck, routeStep, hd, hsel, hfail]
  · intro r hr hid
    obtain ⟨hmem, hready⟩ := getRandomContainer_some_spec rand2 _ r hr
    have hdirty : r.Dirty = true :=
      setContainerDirty_id_dirty chosen.Id s.Containers r hmem hid
    rw [isReady, hdirty] at hready
    simp at hready

/-- The first, selected entry of the C2 witness pool. -/
def containerC2 : Container :=
  { Name := "app-1", Id := "i1", Started := true, Dirty := false,
    IPAddr := "10.0.0.1" }

/-- A two-entry all-ready static pool for the C2 witness. -/
def poolC2 : ReqController :=
  { Config := { Deployment := "app", ContainerImage := "img",
                ContainerImageTag := "v1", ContainerPort := 9000,
                ContainerAmount := 2, CtrlType := "static",
                DynIdleSeconds := 60 },
    Containers :=
      [ containerC2,
        { Name := "app-2", Id := "i2", Started := true, Dirty := false,
          IPAddr := "10.0.0.2" } ],
    ContainerNo := 2 }

/-- A runtime client stub for witnesses in which no runtime call fails. -/
def cliStub : DockerClient :=
  { createContainer := fun n _ _ => some ("id-" ++ n),
    startContainer := fun _ => some (),
    containerDetails := fun _ => some "10.0.0.9",
    stopContainer := fun _ => some (),
    killContainer := fun _ => some (),
    removeContainer := fun _ => some () }

/-- Witness for C2: on the concrete pool `poolC2`, a failing dispatch of the
selected container app-1 yields 502 with app-1 marked dirty. -/
theorem dispatch_failure_quarantines_witness :
    serveHTTP cliStub (fun _ => 0) true (fun _ => none) [] poolC2 =
      some ({ poolC2 with
                Containers := setContainerDirty containerC2.Id poolC2.Containers },
            ServeResult.errorStatus 502) :=
  (dispatch_failure_quarantines cliStub (fun _ => 0) (fun _ => 0)
    (fun _ => none) [] poolC2 containerC2
    (fun hd => absurd hd (by decide)) (by decide) rfl).1

/-! ## Dynamic-mode dormancy check on an empty pool: claim C3 -/

lemma dormantCheck_isSome (s : ReqController) (hne : s.Containers ≠ []) :
    ∃ b, dormantCheck s = some b := by
  rw [dormantCheck]
  by_cases hd : s.Config.CtrlType = DynamicController
  · obtain ⟨c0, cs0, hcs⟩ := List.exists_cons_of_ne_nil hne
    rw [if_pos hd, hcs]
    exact ⟨!c0.Started, by simp⟩
  · rw [if_neg hd]
    exact ⟨false, rfl⟩

/-- Claim C3: in dynamic mode the handler reads `Containers[0]` for the
dormancy check before any emptiness test, so on an empty pool every request
ends in an out-of-bounds access (modelled `none`) instead of an error
response; on a non-empty pool the handler always produces a response — the
access is safe exactly under the precondition that the pool is non-empty. -/
theorem dynamic_empty_pool_panics (cli : DockerClient) (rand : Nat → Nat)
    (newReqOk : Bool) (dispatch : Container → Option BackendResponse)
    (hdrs : Header) (s : ReqController) :
    (s.Config.CtrlType = DynamicController → s.Containers = [] →
       serveHTTP cli rand newReqOk dispatch hdrs s = none)
  ∧ (s.Containers ≠ [] →
       serveHTTP cli rand newReqOk dispatch hdrs s ≠ none) := by
  constructor
  · intro hd hempty
    simp [serveHTTP, dormantCheck, hd, hempty]
  · intro hne
    obtain ⟨b, hb⟩ := dormantCheck_isSome s hne
    rw [serveHTTP, hb]
    simp

/-- A dynamic controller whose pool is empty, for the C3 witness. -/
def poolC3 : ReqController :=
  { Config := { Deployment := "app", ContainerImage := "img",
                ContainerImageTag := "v1", ContainerPort := 9000,
                ContainerAmount := 0, CtrlType := "dynamic",
                DynIdleSeconds := 60 },
    Containers := [],
    ContainerNo := 0 }

/-- Witness for C3: handling any request on the empty dynamic pool `poolC3`
hits the out-of-bounds access. -/
theorem dynamic_empty_pool_panics_witness :
    serveHTTP cliStub (fun _ => 0) true (fun _ => none) [] poolC3 = none :=
  (dynamic_empty_pool_panics cliStub (fun _ => 0) true (fun _ => none) []
    poolC3).1 (by decide) rfl

/-! ## Stopping the pool: claim C4 -/

lemma stopContainers_prefix_ok (cli : DockerClient) (hard : Bool)
    (p tail : List Container)
    (hp : ∀ x ∈ p, x.Started = true → cli.stopContainer x.Id = some ()) :
    stopContainers cli hard (p ++ tail) =
      (p.map (fun x => if x.Started then stopOne x else x) ++
         (stopContainers cli hard tail).1,
       (stopContainers cli hard tail).2) := by
  induction p with
  | nil => simp
  | cons a p' ih =>
      have ih' := ih (fun x hx hs => hp x (List.mem_cons_of_mem a hx) hs)
      by_cases ha : a.Started
      · have hstop := hp a (List.mem_cons_self a p') ha
        simp [stopContainers, ha, hstop, ih']
      · simp [stopContainers, ha, ih']

lemma stopContainers_not_started_unchanged (cli : DockerClient) (hard : Bool) :
    ∀ (cs : List Container) (i : Nat) (x : Container),
      cs[i]? = some x → x.Started = false →
      (stopContainers cli hard cs).1[i]? = some x := by
  intro cs
  induction cs with
  | nil => intro i x h _; simp at h
  | cons a rest ih =>
      intro i x hx hs
      cases i with
      | zero =>
          simp only [List.getElem?_cons_zero, Option.some.injEq] at hx
          subst hx
          simp [stopContainers, hs]
      | succ j =>
          simp only [List.getElem?_cons_succ] at hx
          by_cases ha : a.Started
          · cases hstop : cli.stopContainer a.Id with
            | some u =>
                simp only [stopContainers, ha, Bool.not_true, if_neg,
                           Bool.false_eq_true, not_false_eq_true, hstop]
                simpa using ih j x hx hs
            | none =>
                cases hard with
                | false =>
                    simp only [stopContainers, ha, hstop]
                    simpa using hx
                | true =>
                    cases hkill : cli.killContainer a.Id with
                    | some u =>
                        simp only [stopContainers, ha, hstop, hkill]
                        simpa using ih j x hx hs
                    | none =>
                        simp only [stopContainers, ha, hstop, hkill]
                        simpa using hx
          · simp only [stopContainers, ha]
            simpa using ih j x hx hs

/-- Claim C4: let the pool be a prefix `p` (whose started entries stop
gracefully), then an entry `c` that is started but whose graceful stop
fails, then a suffix `rest`.  With `hard=false` the loop returns the error
leaving `c` and all of `rest` untouched; with `hard=true` and a failing kill
likewise; with `hard=true` and a successful kill the entry's started flag
and address are cleared and the loop continues over `rest`; and a not
started entry is never modified, whatever the outcome. -/
theorem stopAll_failure_spec (cli : DockerClient) (p rest : List Container)
    (c : Container)
    (hp : ∀ x ∈ p, x.Started = true → cli.stopContainer x.Id = some ())
    (hc : c.Started = true) (hfail : cli.stopContainer c.Id = none) :
    (stopContainers cli false (p ++ c :: rest) =
       (p.map (fun x => if x.Started then stopOne x else x) ++ c :: rest,
        false))
  ∧ (cli.killContainer c.Id = none →
       stopContainers cli true (p ++ c :: rest) =
         (p.map (fun x => if x.Started then stopOne x else x) ++ c :: rest,
          false))
  ∧ (cli.killContainer c.Id = some () →
       stopContainers cli true (p ++ c :: rest) =
         (p.map (fun x => if x.Started then stopOne x else x) ++
            stopOne c :: (stopContainers cli true rest).1,
          (stopContainers cli true rest).2))
  ∧ (∀ (hard : Bool) (cs : List Container) (i : Nat) (x : Container),
       cs[i]? = some x → x.Started = false →
       (stopContainers cli hard cs).1[i]? = some x) := by
  refine ⟨?_, ?_, ?_, stopContainers_not_started_unchanged cli⟩
  · rw [stopContainers_prefix_ok cli false p (c :: rest) hp]
    simp [stopContainers, hc, hfail]
  · intro hkill
    rw [stopContainers_prefix_ok cli true p (c :: rest) hp]
    simp [stopContainers, hc, hfail, hkill]
  · intro hkill
    rw [stopContainers_prefix_ok cli true p (c :: rest) hp]
    simp [stopContainers, hc, hfail, hkill]

/-- A runtime client whose graceful stop fails exactly on container i2, for
the C4 witness. -/
def cliC4 : DockerClient :=
  { cliStub with stopContainer := fun id => if id = "i2" then none else some () }

/-- Started entries for the C4 witness pool. -/
def cA4 : Container :=
  { Name := "app-1", Id := "i1", Started := true, Dirty := false,
    IPAddr := "10.0.0.1" }

def cB4 : Container :=
  { Name := "app-2", Id := "i2", Started := true, Dirty := false,
    IPAddr := "10.0.0.2" }

def cC4 : Container :=
  { Name := "app-3", Id := "i3", Started := true, Dirty := false,
    IPAddr := "10.0.0.3" }

/-- Witness for C4: a soft stop over a three-entry pool whose middle entry
fails its graceful stop stops the first entry, returns the error, and
leaves the middle and last entries untouched. -/
theorem stopAll_failure_spec_witness :
    stopContainers cliC4 false ([cA4] ++ cB4 :: [cC4]) =
      ([cA4].map (fun x => if x.Started then stopOne x else x) ++ cB4 :: [cC4],
       false) :=
  (stopAll_failure_spec cliC4 [cA4] [cC4] cB4 (by decide) (by decide)
    (by decide)).1

/-! ## Provisioning: claim C5 -/

/-- The pool entry appended by a successful creation with sequence number
`i`, when the runtime returned id `ids i`. -/
def freshEntry (dep : String) (ids : Nat → String) (i : Nat) : Container :=
  { Name := containerName dep i, Id := ids i, Started := false,
    Dirty := false, IPAddr := "" }

lemma provision_succ_ok (cli : DockerClient) (n : Nat) (s : ReqController)
    (cid : String)
    (h : cli.createContainer
        (containerName s.Config.Deployment (s.ContainerNo + 1))
        (containerImageName s.Config) s.Config.Deployment = some cid) :
    provision cli (n + 1) s = provision cli n
      { s with
          ContainerNo := s.ContainerNo + 1,
          Containers := s.Containers ++
            [{ Name := containerName s.Config.Deployment (s.ContainerNo + 1),
               Id := cid, Started := false, Dirty := false, IPAddr := "" }] } := by
  rw [provision, createNewContainer]
  simp only [h]

lemma provision_succ_fail (cli : DockerClient) (n : Nat) (s : ReqController)
    (h : cli.createContainer
        (containerName s.Config.Deployment (s.ContainerNo + 1))
        (containerImageName s.Config) s.Config.Deployment = none) :
    provision cli (n + 1) s =
      ({ s with ContainerNo := s.ContainerNo + 1 }, false) := by
  rw [provision, createNewContainer]
  simp only [h]

/-- The entries appended by `n` consecutive successful creations starting
from sequence counter `start`: sequence numbers `start+1 .. start+n` in
order. -/
def mkEntries (dep : String) (ids : Nat → String) : Nat → Nat → List Container
  | _, 0 => []
  | start, n + 1 =>
      freshEntry dep ids (start + 1) :: mkEntries dep ids (start + 1) n

lemma mkEntries_eq_map (dep : String) (ids : Nat → String) :
    ∀ (n start : Nat), mkEntries dep ids start n =
      (List.range n).map (fun j => freshEntry dep ids (start + j + 1)) := by
  intro n
  induction n with
  | zero => intro start; rfl
  | succ m ih =>
      intro start
      rw [mkEntries, ih (start + 1), List.range_succ_eq_map, List.map_cons,
          List.map_map]
      congr 1
      refine List.map_congr_left (fun j _ => ?_)
      simp only [Function.comp_apply]
      refine congrArg (freshEntry dep ids) ?_
      omega

lemma provision_ok (cli : DockerClient) (ids : Nat → String) :
    ∀ (n : Nat) (s : ReqController),
      (∀ i, s.ContainerNo < i → i ≤ s.ContainerNo + n →
        cli.createContainer (containerName s.Config.Deployment i)
          (containerImageName s.Config) s.Config.Deployment = some (ids i)) →
      provision cli n s =
        ({ s with
             Containers := s.Containers ++
               mkEntries s.Config.Deployment ids s.ContainerNo n,
             ContainerNo := s.ContainerNo + n }, true) := by
  intro n
  induction n with
  | zero => intro s _; simp [provision, mkEntries]
  | succ m ih =>
      intro s h
      have h0 := h (s.ContainerNo + 1) (by omega) (by omega)
      rw [provision_succ_ok cli m s _ h0]
      have hstep : ∀ i, s.ContainerNo + 1 < i → i ≤ s.ContainerNo + 1 + m →
          cli.createContainer (containerName s.Config.Deployment i)
            (containerImageName s.Config) s.Config.Deployment =
            some (ids i) :=
        fun i h1 h2 => h i (by omega) (by omega)
      have ihh := ih
        { s with
            ContainerNo := s.ContainerNo + 1,
            Containers := s.Containers ++
              [{ Name := containerName s.Config.Deployment (s.ContainerNo + 1),
                 Id := ids (s.ContainerNo + 1), Started := false,
                 Dirty := false, IPAddr := "" }] } hstep
      rw [ihh]
      refine congrArg (fun z => (z, true)) ?_
      simp only [mkEntries, freshEntry, List.append_assoc,
                 List.singleton_append]
      congr 1
      omega

lemma provision_fail (cli : DockerClient) (ids : Nat → String) :
    ∀ (k : Nat), ∀ (n : Nat) (s : ReqController), k < n →
      (∀ i, s.ContainerNo < i → i ≤ s.ContainerNo + k →
        cli.createContainer (containerName s.Config.Deployment i)
          (containerImageName s.Config) s.Config.Deployment = some (ids i)) →
      cli.createContainer
          (containerName s.Config.Deployment (s.ContainerNo + k + 1))
          (containerImageName s.Config) s.Config.Deployment = none →
      provision cli n s =
        ({ s with
             Containers := s.Containers ++
               mkEntries s.Config.Deployment ids s.ContainerNo k,
             ContainerNo := s.ContainerNo + k + 1 }, false) := by
  intro k
  induction k with
  | zero =>
      intro n s hk _ hfail
      obtain ⟨m, rfl⟩ : ∃ m, n = m + 1 := ⟨n - 1, by omega⟩
      rw [provision_succ_fail cli m s (by simpa using hfail)]
      simp [mkEntries]
  | succ j ih =>
      intro n s hk h hfail
      obtain ⟨m, rfl⟩ : ∃ m, n = m + 1 := ⟨n - 1, by omega⟩
      have h0 := h (s.ContainerNo + 1) (by omega) (by omega)
      rw [provision_succ_ok cli m s _ h0]
      have hfail2 : cli.createContainer
          (containerName s.Config.Deployment (s.ContainerNo + 1 + j + 1))
          (containerImageName s.Config) s.Config.Deployment = none := by
        have hidx : s.ContainerNo + 1 + j + 1 = s.ContainerNo + (j + 1) + 1 := by
          omega
        rw [hidx]
        exact hfail
      have hstep : ∀ i, s.ContainerNo + 1 < i → i ≤ s.ContainerNo + 1 + j →
          cli.createContainer (containerName s.Config.Deployment i)
            (containerImageName s.Config) s.Config.Deployment =
            some (ids i) :=
        fun i h1 h2 => h i (by omega) (by omega)
      have ihh := ih m
        { s with
            ContainerNo := s.ContainerNo + 1,
            Containers := s.Containers ++
              [{ Name := containerName s.Config.Deployment (s.ContainerNo + 1),
                 Id := ids (s.ContainerNo + 1), Started := false,
                 Dirty := false, IPAddr := "" }] } (by omega) hstep hfail2
      rw [ihh]
      refine congrArg (fun z => (z, false)) ?_
      simp only [mkEntries, freshEntry, List.append_assoc,
                 List.singleton_append]
      congr 1
      omega

/-- Claim C5: provisioning `n` containers on an initially empty pool
(sequence counter 0) yields, when every creation succeeds, exactly `n`
entries — entry `j` named `<deployment>-<j+1>` with the runtime-assigned id,
`started=false`, `dirty=false` and an empty address — with the counter at
`n`, and pairwise distinct ids whenever the runtime assigned distinct ids to
the distinct names; when creation `k+1` is the first to fail, the loop
aborts with the `k` already-created entries kept (no rollback) and the
counter at `k+1` (incremented by the failed creation, never reused). -/
theorem provision_spec (cli : DockerClient) (s : ReqController) (n : Nat)
    (ids : Nat → String) (h0 : s.Containers = []) (hn0 : s.ContainerNo = 0) :
    ((∀ i ∈ List.range n,
        cli.createContainer (containerName s.Config.Deployment (i + 1))
          (containerImageName s.Config) s.Config.Deployment =
          some (ids (i + 1))) →
       provision cli n s =
         ({ s with
              Containers := (List.range n).map
                (fun j => freshEntry s.Config.Deployment ids (j + 1)),
              ContainerNo := n }, true)
       ∧ ((∀ i ∈ List.range n, ∀ j ∈ List.range n,
             ids (i + 1) = ids (j + 1) → i = j) →
          ((List.range n).map
             (fun j => freshEntry s.Config.Deployment ids (j + 1))).Pairwise
            (fun a b => a.Id ≠ b.Id)))
  ∧ (∀ k, k < n →
       (∀ i ∈ List.range k,
         cli.createContainer (containerName s.Config.Deployment (i + 1))
           (containerImageName s.Config) s.Config.Deployment =
           some (ids (i + 1))) →
       cli.createContainer (containerName s.Config.Deployment (k + 1))
         (containerImageName s.Config) s.Config.Deployment = none →
       provision cli n s =
         ({ s with
              Containers := (List.range k).map
                (fun j => freshEntry s.Config.Deployment ids (j + 1)),
              ContainerNo := k + 1 }, false)) := by
  constructor
  · intro hok
    constructor
    · have hok2 : ∀ i, s.ContainerNo < i → i ≤ s.ContainerNo + n →
          cli.createContainer (containerName s.Config.Deployment i)
            (containerImageName s.Config) s.Config.Deployment = some (ids i) := by
        intro i h1 h2
        rw [hn0] at h1 h2
        obtain ⟨j, rfl⟩ : ∃ j, i = j + 1 := ⟨i - 1, by omega⟩
        exact hok j (by simp; omega)
      have := provision_ok cli ids n s hok2
      rw [this, mkEntries_eq_map, h0, hn0]
      refine congrArg (fun z => (z, true)) ?_
      congr 1
      · rw [List.nil_append]
        refine List.map_congr_left (fun j _ => ?_)
        exact congrArg (freshEntry s.Config.Deployment ids) (by omega)
      · omega
    · intro hinj
      rw [List.pairwise_map]
      refine List.Pairwise.imp_of_mem ?_ (List.pairwise_lt_range n)
      intro a b ha hb hlt heq
      have : a = b := hinj a ha b hb (by simpa [freshEntry] using heq)
      omega
  · intro k hk hok hfail
    have hok2 : ∀ i, s.ContainerNo < i → i ≤ s.ContainerNo + k →
        cli.createContainer (containerName s.Config.Deployment i)
          (containerImageName s.Config) s.Config.Deployment = some (ids i) := by
      intro i h1 h2
      rw [hn0] at h1 h2
      obtain ⟨j, rfl⟩ : ∃ j, i = j + 1 := ⟨i - 1, by omega⟩
      exact hok j (by simp; omega)
    have hfail2 : cli.createContainer
        (containerName s.Config.Deployment (s.ContainerNo + k + 1))
        (containerImageName s.Config) s.Config.Deployment = none := by
      rw [hn0]
      simpa using hfail
    have := provision_fail cli ids k n s hk hok2 hfail2
    rw [this, mkEntries_eq_map, h0, hn0]
    refine congrArg (fun z => (z, false)) ?_
    congr 1
    · rw [List.nil_append]
      refine List.map_congr_left (fun j _ => ?_)
      exact congrArg (freshEntry s.Config.Deployment ids) (by omega)
    · omega

/-- The runtime client of the C5 witness: creation succeeds, assigning id
`id-<name>` (distinct names get distinct ids). -/
def cliC5 : DockerClient := cliStub

/-- An empty controller in static mode, for the C5 witness. -/
def poolC5 : ReqController :=
  { Config := { Deployment := "app", ContainerImage := "img",
                ContainerImageTag := "v1", ContainerPort := 9000,
                ContainerAmount := 2, CtrlType := "static",
                DynIdleSeconds := 60 },
    Containers := [],
    ContainerNo := 0 }

/-- The ids `cliC5` assigns to the names `app-<i>`. -/
def idsC5 (i : Nat) : String := "id-app-" ++ toString i

/-- Witness for C5: provisioning 2 containers on the empty pool yields the
two entries app-1, app-2 with distinct ids and the counter at 2. -/
theorem provision_spec_witness :
    (provision cliC5 2 poolC5 =
       ({ poolC5 with
            Containers := (List.range 2).map
              (fun j => freshEntry poolC5.Config.Deployment idsC5 (j + 1)),
            ContainerNo := 2 }, true))
  ∧ ((List.range 2).map
       (fun j => freshEntry poolC5.Config.Deployment idsC5 (j + 1))).Pairwise
      (fun a b => a.Id ≠ b.Id) := by
  have h := (provision_spec cliC5 poolC5 2 idsC5 rfl rfl).1 (by decide)
  exact ⟨h.1, h.2 (by decide)⟩

/-! ## Idempotent start: claim C6 -/

lemma startContainers_ok_all_started (cli : DockerClient) :
    ∀ (cs cs' : List Container) (tr : List DockerAction),
      startContainers cli cs = (cs', tr, true) →
      ∀ c ∈ cs', c.Started = true := by
  intro cs
  induction cs with
  | nil =>
      intro cs' tr h c hc
      rw [startContainers] at h
      cases h
      simp at hc
  | cons a rest ih =>
      intro cs' tr h c hc
      by_cases ha : a.Started
      · rcases hr : startContainers cli rest with ⟨l, tr2, ok⟩
        rw [startContainers] at h
        rw [if_pos ha] at h
        simp only [hr] at h
        cases h
        rcases List.mem_cons.mp hc with hc | hc
        · rw [hc]; exact ha
        · exact ih _ _ hr c hc
      · rw [startContainers, if_neg ha] at h
        cases hstart : cli.startContainer a.Id with
        | none => rw [hstart] at h; simp at h
        | some u =>
            rw [hstart] at h
            cases hdet : cli.containerDetails a.Id with
            | none => rw [hdet] at h; simp at h
            | some details =>
                rw [hdet] at h
                rcases hr : startContainers cli rest with ⟨l, tr2, ok⟩
                simp only [hr] at h
                cases h
                rcases List.mem_cons.mp hc with hc | hc
                · rw [hc]
                · exact ih _ _ hr c hc

lemma startContainers_all_started_noop (cli : DockerClient) :
    ∀ cs : List Container, (∀ c ∈ cs, c.Started = true) →
      startContainers cli cs = (cs, [], true) := by
  intro cs
  induction cs with
  | nil => intro _; rfl
  | cons a rest ih =>
      intro h
      rw [startContainers, if_pos (h a (List.mem_cons_self a rest))]
      rw [ih (fun c hc => h c (List.mem_cons_of_mem a hc))]

/-- Claim C6: if a first `startContainers` pass succeeded, a second pass on
the resulting pool makes no runtime call at all (empty trace: no start, no
inspect — every entry is already started and skipped) and returns exactly
the same pool, with the same started flags and addresses. -/
theorem startAll_idempotent (cli : DockerClient) (cs cs' : List Container)
    (tr : List DockerAction)
    (h : startContainers cli cs = (cs', tr, true)) :
    startContainers cli cs' = (cs', [], true) :=
  startContainers_all_started_noop cli cs'
    (startContainers_ok_all_started cli cs cs' tr h)

/-- Witness for C6: after starting a one-entry stopped pool, a second pass
returns it unchanged with no runtime call. -/
theorem startAll_idempotent_witness :
    startContainers cliStub
      [{ Name := "app-1", Id := "i1", Started := true, Dirty := false,
         IPAddr := "10.0.0.9" }] =
      ([{ Name := "app-1", Id := "i1", Started := true, Dirty := false,
          IPAddr := "10.0.0.9" }], [], true) :=
  startAll_idempotent cliStub
    [{ Name := "app-1", Id := "i1", Started := false, Dirty := false,
       IPAddr := "" }]
    [{ Name := "app-1", Id := "i1", Started := true, Dirty := false,
       IPAddr := "10.0.0.9" }]
    [DockerAction.start "i1", DockerAction.inspect "i1"] (by decide)

/-! ## Dirty is one-way: claim C7 -/

lemma startContainers_dirty_preserved (cli : DockerClient) :
    ∀ (cs : List Container) (i : Nat) (c : Container),
      cs[i]? = some c → c.Dirty = true →
      ∃ c2, (startContainers cli cs).1[i]? = some c2 ∧ c2.Dirty = true := by
  intro cs
  induction cs with
  | nil => intro i c h _; simp at h
  | cons a rest ih =>
      intro i c hx hd
      by_cases ha : a.Started
      · cases i with
        | zero =>
            simp only [List.getElem?_cons_zero, Option.some.injEq] at hx
            subst hx
            exact ⟨a, by simp [startContainers, ha], hd⟩
        | succ j =>
            simp only [List.getElem?_cons_succ] at hx
            obtain ⟨c2, h2, hd2⟩ := ih j c hx hd
            exact ⟨c2, by simpa [startContainers, ha] using h2, hd2⟩
      · cases hstart : cli.startContainer a.Id with
        | none =>
            refine ⟨c, ?_, hd⟩
            simp only [startContainers, ha, hstart]
            simpa using hx
        | some u =>
            cases hdet : cli.containerDetails a.Id with
            | none =>
                refine ⟨c, ?_, hd⟩
                simp only [startContainers, ha, hstart, hdet]
                simpa using hx
            | some details =>
                cases i with
                | zero =>
                    simp only [List.getElem?_cons_zero, Option.some.injEq] at hx
                    subst hx
                    refine ⟨{ a with IPAddr := details, Started := true },
                            ?_, ?_⟩
                    · simp [startContainers, ha, hstart, hdet]
                    · simpa using hd
                | succ j =>
                    simp only [List.getElem?_cons_succ] at hx
                    obtain ⟨c2, h2, hd2⟩ := ih j c hx hd
                    refine ⟨c2, ?_, hd2⟩
                    simp only [startContainers, ha, hstart, hdet]
                    simpa using h2

lemma stopContainers_dirty_preserved (cli : DockerClient) (hard : Bool) :
    ∀ (cs : List Container) (i : Nat) (c : Container),
      cs[i]? = some c → c.Dirty = true →
      ∃ c2, (stopContainers cli hard cs).1[i]? = some c2 ∧ c2.Dirty = true := by
  intro cs
  induction cs with
  | nil => intro i c h _; simp at h
  | cons a rest ih =>
      intro i c hx hd
      by_cases ha : a.Started
      · cases hstop : cli.stopContainer a.Id with
        | some u =>
            cases i with
            | zero =>
                simp only [List.getElem?_cons_zero, Option.some.injEq] at hx
                subst hx
                refine ⟨stopOne a, by simp [stopContainers, ha, hstop], ?_⟩
                simpa [stopOne] using hd
            | succ j =>
                simp only [List.getElem?_cons_succ] at hx
                obtain ⟨c2, h2, hd2⟩ := ih j c hx hd
                exact ⟨c2, by simpa [stopContainers, ha, hstop] using h2, hd2⟩
        | none =>
            cases hard with
            | false =>
                refine ⟨c, ?_, hd⟩
                simp only [stopContainers, ha, hstop]
                simpa using hx
            | true =>
                cases hkill : cli.killContainer a.Id with
                | none =>
                    refine ⟨c, ?_, hd⟩
                    simp only [stopContainers, ha, hstop, hkill]
                    simpa using hx
                | some u =>
                    cases i with
                    | zero =>
                        simp only [List.getElem?_cons_zero,
                                   Option.some.injEq] at hx
                        subst hx
                        refine ⟨stopOne a,
                          by simp [stopContainers, ha, hstop, hkill], ?_⟩
                        simpa [stopOne] using hd
                    | succ j =>
                        simp only [List.getElem?_cons_succ] at hx
                        obtain ⟨c2, h2, hd2⟩ := ih j c hx hd
                        exact ⟨c2,
                          by simpa [stopContainers, ha, hstop, hkill] using h2,
                          hd2⟩
      · cases i with
        | zero =>
            simp only [List.getElem?_cons_zero, Option.some.injEq] at hx
            subst hx
            exact ⟨a, by simp [stopContainers, ha], hd⟩
        | succ j =>
            simp only [List.getElem?_cons_succ] at hx
            obtain ⟨c2, h2, hd2⟩ := ih j c hx hd
            exact ⟨c2, by simpa [stopContainers, ha] using h2, hd2⟩

lemma setContainerDirty_dirty_preserved (id : String) (cs : List Container)
    (i : Nat) (c : Container) (hx : cs[i]? = some c) (hd : c.Dirty = true) :
    ∃ c2, (setContainerDirty id cs)[i]? = some c2 ∧ c2.Dirty = true := by
  rw [setContainerDirty_getElem, hx]
  by_cases h : c.Id = id
  · exact ⟨_, rfl, by simp [h]⟩
  · exact ⟨_, rfl, by simp [h, hd]⟩

lemma routeStep_pool (rand : Nat → Nat) (newReqOk : Bool)
    (dispatch : Container → Option BackendResponse) (hdrs : Header)
    (s1 : ReqController) :
    (routeStep rand newReqOk dispatch hdrs s1).1.Containers = s1.Containers ∨
      ∃ id, (routeStep rand newReqOk dispatch hdrs s1).1.Containers =
        setContainerDirty id s1.Containers := by
  cases hsel : getRandomContainer rand s1 with
  | none => left; simp [routeStep, hsel]
  | some chosen =>
      by_cases hreq : newReqOk = false
      · left; simp [routeStep, hsel, hreq]
      · cases hdisp : dispatch chosen with
        | none =>
            right
            exact ⟨chosen.Id, by simp [routeStep, hsel, hreq, hdisp]⟩
        | some res => left; simp [routeStep, hsel, hreq, hdisp]

lemma serveAfterCheck_pool (cli : DockerClient) (rand : Nat → Nat)
    (newReqOk : Bool) (dispatch : Container → Option BackendResponse)
    (hdrs : Header) (s : ReqController) (needStart : Bool) :
    (serveAfterCheck cli rand newReqOk dispatch hdrs s needStart).1.Containers =
        (if needStart then (startContainers cli s.Containers).1
         else s.Containers) ∨
      ∃ id,
        (serveAfterCheck cli rand newReqOk dispatch hdrs s
            needStart).1.Containers =
          setContainerDirty id
            (if needStart then (startContainers cli s.Containers).1
             else s.Containers) := by
  cases needStart with
  | false =>
      have := routeStep_pool rand newReqOk dispatch hdrs s
      simpa [serveAfterCheck] using this
  | true =>
      cases hok : (startContainers cli s.Containers).2.2 with
      | false => left; simp [serveAfterCheck, hok]
      | true =>
          have := routeStep_pool rand newReqOk dispatch hdrs
            { s with Containers := (startContainers cli s.Containers).1 }
          simpa [serveAfterCheck, hok] using this

/-- Claim C7: the dirty flag is one-way.  A dirty entry stays dirty (at its
position) across `startContainers`, `stopContainers` (either mode),
`setContainerDirty` with any id, a stop followed by a restart, and a whole
request handled by the router — selection and cleanup never write the pool
at all, so no operation of this core ever makes a dirty container ready
again. -/
theorem dirty_one_way (cli : DockerClient) (rand : Nat → Nat)
    (newReqOk : Bool) (dispatch : Container → Option BackendResponse)
    (hdrs : Header) (hard : Bool) (id : String) (s : ReqController) (i : Nat)
    (c : Container) (hx : s.Containers[i]? = some c) (hd : c.Dirty = true) :
    (∃ c2, (startContainers cli s.Containers).1[i]? = some c2 ∧
       c2.Dirty = true)
  ∧ (∃ c2, (stopContainers cli hard s.Containers).1[i]? = some c2 ∧
       c2.Dirty = true)
  ∧ (∃ c2, (setContainerDirty id s.Containers)[i]? = some c2 ∧
       c2.Dirty = true)
  ∧ (∃ c2, (startContainers cli
        (stopContainers cli hard s.Containers).1).1[i]? = some c2 ∧
       c2.Dirty = true)
  ∧ (∀ s2 res, serveHTTP cli rand newReqOk dispatch hdrs s = some (s2, res) →
       ∃ c2, s2.Containers[i]? = some c2 ∧ c2.Dirty = true) := by
  refine ⟨startContainers_dirty_preserved cli s.Containers i c hx hd,
          stopContainers_dirty_preserved cli hard s.Containers i c hx hd,
          setContainerDirty_dirty_preserved id s.Containers i c hx hd, ?_, ?_⟩
  · obtain ⟨c2, h2, hd2⟩ :=
      stopContainers_dirty_preserved cli hard s.Containers i c hx hd
    exact startContainers_dirty_preserved cli _ i c2 h2 hd2
  · intro s2 res hserve
    rw [serveHTTP] at hserve
    cases hdc : dormantCheck s with
    | none => rw [hdc] at hserve; cases hserve
    | some needStart =>
        rw [hdc] at hserve
        simp only [Option.some.injEq] at hserve
        have hpool := serveAfterCheck_pool cli rand newReqOk dispatch hdrs s
          needStart
        have hbase : ∃ c2,
            (if needStart then (startContainers cli s.Containers).1
             else s.Containers)[i]? = some c2 ∧ c2.Dirty = true := by
          cases needStart with
          | true =>
              simpa using startContainers_dirty_preserved cli s.Containers i c
                hx hd
          | false => exact ⟨c, by simpa using hx, hd⟩
        obtain ⟨c2, h2, hd2⟩ := hbase
        have hs2 : s2 = (serveAfterCheck cli rand newReqOk dispatch hdrs s
            needStart).1 := by rw [hserve]
        rcases hpool with hpool | ⟨mid, hpool⟩
        · refine ⟨c2, ?_, hd2⟩
          rw [hs2, hpool]
          exact h2
        · obtain ⟨c3, h3, hd3⟩ :=
            setContainerDirty_dirty_preserved mid _ i c2 h2 hd2
          refine ⟨c3, ?_, hd3⟩
          rw [hs2, hpool]
          exact h3

/-- A one-entry pool whose container is started but dirty, for the C7
witness. -/
def poolC7 : ReqController :=
  { Config := { Deployment := "app", ContainerImage := "img",
                ContainerImageTag := "v1", ContainerPort := 9000,
                ContainerAmount := 1, CtrlType := "static",
                DynIdleSeconds := 60 },
    Containers :=
      [ { Name := "app-1", Id := "i1", Started := true, Dirty := true,
          IPAddr := "10.0.0.1" } ],
    ContainerNo := 1 }

/-- Witness for C7: the dirty entry of `poolC7` stays dirty across every
operation, including a stop-then-restart and a full request. -/
theorem dirty_one_way_witness :
    (∃ c2, (startContainers cliStub poolC7.Containers).1[0]? = some c2 ∧
       c2.Dirty = true)
  ∧ (∃ c2, (stopContainers cliStub true poolC7.Containers).1[0]? = some c2 ∧
       c2.Dirty = true)
  ∧ (∃ c2, (setContainerDirty "i1" poolC7.Containers)[0]? = some c2 ∧
       c2.Dirty = true)
  ∧ (∃ c2, (startContainers cliStub
        (stopContainers cliStub true poolC7.Containers).1).1[0]? = some c2 ∧
       c2.Dirty = true)
  ∧ (∀ s2 res, serveHTTP cliStub (fun _ => 0) true (fun _ => none) [] poolC7 =
        some (s2, res) →
       ∃ c2, s2.Containers[0]? = some c2 ∧ c2.Dirty = true) :=
  dirty_one_way cliStub (fun _ => 0) true (fun _ => none) [] true "i1" poolC7 0
    { Name := "app-1", Id := "i1", Started := true, Dirty := true,
      IPAddr := "10.0.0.1" } (by decide) (by decide)

/-! ## Started/address invariant: claim C8 -/

/-- The pool invariant of the spec: a not-started entry has an empty
address. -/
abbrev addrInv (cs : List Container) : Prop :=
  ∀ c ∈ cs, c.Started = false → c.IPAddr = ""

lemma startContainers_addrInv (cli : DockerClient) :
    ∀ cs : List Container, addrInv cs → addrInv (startContainers cli cs).1 := by
  intro cs
  induction cs with
  | nil => intro h; exact h
  | cons a rest ih =>
      intro h
      have hrest : addrInv rest := fun c hc => h c (List.mem_cons_of_mem a hc)
      by_cases ha : a.Started
      · have heq : (startContainers cli (a :: rest)).1 =
            a :: (startContainers cli rest).1 := by
          simp [startContainers, ha]
        rw [heq]
        intro c hc
        rcases List.mem_cons.mp hc with rfl | hc
        · exact h c (List.mem_cons_self c rest)
        · exact ih hrest c hc
      · cases hstart : cli.startContainer a.Id with
        | none =>
            have heq : (startContainers cli (a :: rest)).1 = a :: rest := by
              simp [startContainers, ha, hstart]
            rw [heq]
            exact h
        | some u =>
            cases hdet : cli.containerDetails a.Id with
            | none =>
                have heq : (startContainers cli (a :: rest)).1 = a :: rest := by
                  simp [startContainers, ha, hstart, hdet]
                rw [heq]
                exact h
            | some details =>
                have heq : (startContainers cli (a :: rest)).1 =
                    { a with IPAddr := details, Started := true } ::
                      (startContainers cli rest).1 := by
                  simp [startContainers, ha, hstart, hdet]
                rw [heq]
                intro c hc
                rcases List.mem_cons.mp hc with rfl | hc
                · intro hs
                  simp at hs
                · exact ih hrest c hc

lemma stopContainers_addrInv (cli : DockerClient) (hard : Bool) :
    ∀ cs : List Container, addrInv cs →
      addrInv (stopContainers cli hard cs).1 := by
  intro cs
  induction cs with
  | nil => intro h; exact h
  | cons a rest ih =>
      intro h
      have hrest : addrInv rest := fun c hc => h c (List.mem_cons_of_mem a hc)
      have hstopOne : ∀ l : List Container, addrInv l →
          addrInv (stopOne a :: l) := by
        intro l hl c hc
        rcases List.mem_cons.mp hc with rfl | hc
        · intro _; rfl
        · exact hl c hc
      by_cases ha : a.Started
      · cases hstop : cli.stopContainer a.Id with
        | some u =>
            have heq : (stopContainers cli hard (a :: rest)).1 =
                stopOne a :: (stopContainers cli hard rest).1 := by
              simp [stopContainers, ha, hstop]
            rw [heq]
            exact hstopOne _ (ih hrest)
        | none =>
            cases hard with
            | false =>
                have heq : (stopContainers cli false (a :: rest)).1 =
                    a :: rest := by
                  simp [stopContainers, ha, hstop]
                rw [heq]
                exact h
            | true =>
                cases hkill : cli.killContainer a.Id with
                | none =>
                    have heq : (stopContainers cli true (a :: rest)).1 =
                        a :: rest := by
                      simp [stopContainers, ha, hstop, hkill]
                    rw [heq]
                    exact h
                | some u =>
                    have heq : (stopContainers cli true (a :: rest)).1 =
                        stopOne a :: (stopContainers cli true rest).1 := by
                      simp [stopContainers, ha, hstop, hkill]
                    rw [heq]
                    exact hstopOne _ (ih hrest)
      · have heq : (stopContainers cli hard (a :: rest)).1 =
            a :: (stopContainers cli hard rest).1 := by
          simp [stopContainers, ha]
        rw [heq]
        intro c hc
        rcases List.mem_cons.mp hc with rfl | hc
        · exact h c (List.mem_cons_self c rest)
        · exact ih hrest c hc

lemma setContainerDirty_addrInv (id : String) (cs : List Container)
    (h : addrInv cs) : addrInv (setContainerDirty id cs) := by
  intro c hc
  simp only [setContainerDirty, List.mem_map] at hc
  obtain ⟨a, ha, rfl⟩ := hc
  by_cases hid : a.Id = id
  · simp only [if_pos hid]
    intro hs
    exact h a ha (by simpa using hs)
  · simp only [if_neg hid]
    exact h a ha

lemma createNewContainer_addrInv (cli : DockerClient) (s : ReqController)
    (h : addrInv s.Containers) :
    addrInv (createNewContainer cli s).1.Containers := by
  rw [createNewContainer]
  cases hc : cli.createContainer
      (containerName s.Config.Deployment (s.ContainerNo + 1))
      (containerImageName s.Config) s.Config.Deployment with
  | none => exact h
  | some cid =>
      intro c hmem
      rcases List.mem_append.mp hmem with hmem | hmem
      · exact h c hmem
      · simp at hmem
        subst hmem
        intro _
        rfl

/-- Claim C8: the invariant "started = false implies the address is empty"
holds for the entry added by container creation and is preserved by every
pool operation: creation, `startContainers` (which sets the address only
together with started = true), `stopContainers` (which clears both
together), and `setContainerDirty` (which touches neither field); selection
does not write the pool. -/
theorem started_addr_invariant (cli : DockerClient) (hard : Bool)
    (id : String) (s : ReqController) (h : addrInv s.Containers) :
    addrInv (createNewContainer cli s).1.Containers
  ∧ addrInv (startContainers cli s.Containers).1
  ∧ addrInv (stopContainers cli hard s.Containers).1
  ∧ addrInv (setContainerDirty id s.Containers) :=
  ⟨createNewContainer_addrInv cli s h,
   startContainers_addrInv cli s.Containers h,
   stopContainers_addrInv cli hard s.Containers h,
   setContainerDirty_addrInv id s.Containers h⟩

/-- Witness for C8: the invariant is preserved on the concrete pool
`poolC1` (one stopped entry with empty address, one started entry). -/
theorem started_addr_invariant_witness :
    addrInv (createNewContainer cliStub poolC1).1.Containers
  ∧ addrInv (startContainers cliStub poolC1.Containers).1
  ∧ addrInv (stopContainers cliStub false poolC1.Containers).1
  ∧ addrInv (setContainerDirty "i1" poolC1.Containers) :=
  started_addr_invariant cliStub false "i1" poolC1 (by decide)

/-! ## Cleanup: claim C9 -/

/-- The runtime calls `cleanupContainers` makes for one entry when they all
succeed: a kill first if the entry is started, then the removal. -/
def cleanStep (c : Container) : List DockerAction :=
  if c.Started then [DockerAction.kill c.Id, DockerAction.remove c.Id]
  else [DockerAction.remove c.Id]

lemma cleanup_ok (cli : DockerClient) :
    ∀ cs : List Container,
      (∀ x ∈ cs, (x.Started = true → cli.killContainer x.Id = some ()) ∧
                 cli.removeContainer x.Id = some ()) →
      cleanupContainers cli cs = (cs.flatMap cleanStep, true) := by
  intro cs
  induction cs with
  | nil => intro _; rfl
  | cons a rest ih =>
      intro h
      have ha := h a (List.mem_cons_self a rest)
      have hrest := ih (fun x hx => h x (List.mem_cons_of_mem a hx))
      by_cases hs : a.Started
      · simp [cleanupContainers, hs, ha.1 hs, ha.2, hrest, cleanStep]
      · simp [cleanupContainers, hs, ha.2, hrest, cleanStep]

lemma cleanup_prefix_ok (cli : DockerClient) :
    ∀ (p tail : List Container),
      (∀ x ∈ p, (x.Started = true → cli.killContainer x.Id = some ()) ∧
                cli.removeContainer x.Id = some ()) →
      cleanupContainers cli (p ++ tail) =
        (p.flatMap cleanStep ++ (cleanupContainers cli tail).1,
         (cleanupContainers cli tail).2) := by
  intro p
  induction p with
  | nil => intro tail _; simp
  | cons a p2 ih =>
      intro tail h
      have ha := h a (List.mem_cons_self a p2)
      have hrec := ih tail (fun x hx => h x (List.mem_cons_of_mem a hx))
      by_cases hs : a.Started
      · simp [cleanupContainers, hs, ha.1 hs, ha.2, hrec, cleanStep]
      · simp [cleanupContainers, hs, ha.2, hrec, cleanStep]

/-- Claim C9: `cleanupContainers` walks the pool in order, force-killing an
entry only when it is started and then removing it (on an all-success run
the trace is exactly kill-if-started then remove, entry by entry — on a pool
of one started and one stopped entry: kill the first, remove the first,
remove the second); a failing kill aborts the loop right there, and a
failing removal aborts after the attempted calls of that entry, so entries
after the failing one are neither killed nor removed. -/
theorem cleanup_spec (cli : DockerClient) (cs p rest : List Container)
    (c : Container) :
    ((∀ x ∈ cs, (x.Started = true → cli.killContainer x.Id = some ()) ∧
        cli.removeContainer x.Id = some ()) →
      cleanupContainers cli cs = (cs.flatMap cleanStep, true))
  ∧ ((∀ x ∈ p, (x.Started = true → cli.killContainer x.Id = some ()) ∧
        cli.removeContainer x.Id = some ()) →
     c.Started = true → cli.killContainer c.Id = none →
      cleanupContainers cli (p ++ c :: rest) =
        (p.flatMap cleanStep ++ [DockerAction.kill c.Id], false))
  ∧ ((∀ x ∈ p, (x.Started = true → cli.killContainer x.Id = some ()) ∧
        cli.removeContainer x.Id = some ()) →
     (c.Started = true → cli.killContainer c.Id = some ()) →
     cli.removeContainer c.Id = none →
      cleanupContainers cli (p ++ c :: rest) =
        (p.flatMap cleanStep ++ cleanStep c, false)) := by
  refine ⟨cleanup_ok cli cs, ?_, ?_⟩
  · intro hp hc hkill
    rw [cleanup_prefix_ok cli p (c :: rest) hp]
    simp [cleanupContainers, hc, hkill]
  · intro hp hkill hrem
    rw [cleanup_prefix_ok cli p (c :: rest) hp]
    by_cases hc : c.Started
    · simp [cleanupContainers, hc, hkill hc, hrem, cleanStep]
    · simp [cleanupContainers, hc, hrem, cleanStep]

/-- Witness for C9: cleanup of a pool with one started and one stopped
entry kills exactly the started one and removes both, in order. -/
theorem cleanup_spec_witness :
    cleanupContainers cliStub
      [{ Name := "app-1", Id := "i1", Started := true, Dirty := false,
         IPAddr := "10.0.0.1" },
       { Name := "app-2", Id := "i2", Started := false, Dirty := false,
         IPAddr := "" }] =
      ([{ Name := "app-1", Id := "i1", Started := true, Dirty := false,
          IPAddr := "10.0.0.1" },
        { Name := "app-2", Id := "i2", Started := false, Dirty := false,
          IPAddr := "" }].flatMap cleanStep, true) :=
  (cleanup_spec cliStub
    [{ Name := "app-1", Id := "i1", Started := true, Dirty := false,
       IPAddr := "10.0.0.1" },
     { Name := "app-2", Id := "i2", Started := false, Dirty := false,
       IPAddr := "" }] [] [] default).1 (by decide)

/-! ## Response header copying: claim C10 -/

lemma countPair_headerAdd (d : Header) (k v k2 v2 : String) :
    countPair (headerAdd d k v) k2 v2 =
      countPair d k2 v2 + (if k = k2 ∧ v = v2 then 1 else 0) := by
  induction d with
  | nil =>
      by_cases hk : k = k2 <;> by_cases hv : v = v2 <;>
        simp [headerAdd, countPair, List.count_singleton, beq_iff_eq, hk, hv]
  | cons kv rest ih =>
      obtain ⟨k3, vs⟩ := kv
      by_cases hk3 : k3 = k
      · subst hk3
        simp only [headerAdd, if_pos rfl, countPair, List.count_append,
                   List.count_singleton]
        by_cases hk : k3 = k2 <;> by_cases hv : v = v2 <;>
          (simp [hk, hv, beq_iff_eq]; try omega)
      · simp only [headerAdd, if_neg hk3, countPair, ih]
        omega

lemma countPair_addAll (vs : List String) :
    ∀ (d : Header) (k k2 v2 : String),
      countPair (addAll d k vs) k2 v2 =
        countPair d k2 v2 + (if k = k2 then vs.count v2 else 0) := by
  induction vs with
  | nil => intro d k k2 v2; simp [addAll]
  | cons v vs ih =>
      intro d k k2 v2
      rw [addAll, ih, countPair_headerAdd]
      by_cases hk : k = k2 <;> by_cases hv : v = v2 <;>
        (simp [hk, hv, List.count_cons, beq_iff_eq, Ne.symm]; try omega)

lemma countPair_copyHeader (src0 : Header) :
    ∀ (dst : Header) (k v : String),
      countPair (copyHeader dst src0) k v =
        countPair dst k v + countPair src0 k v := by
  induction src0 with
  | nil => intro dst k v; simp [copyHeader, countPair]
  | cons kv rest ih =>
      obtain ⟨k3, vs⟩ := kv
      intro dst k v
      rw [copyHeader, ih, countPair_addAll]
      simp only [countPair]
      omega

/-- Claim C10: on dispatch success the router answers with the backend's
status code and with the outbound headers obtained by adding every backend
header value onto the existing outbound ones (`http.Header.Add`, never
overwrite): each (key, value) pair ends up in the outbound header set
exactly its outbound-plus-backend number of times — in particular at least
as many times as in the backend response.  As in C2, `hnd` says the request
needs no dynamic wake-up. -/
theorem dispatch_success_headers (cli : DockerClient) (rand : Nat → Nat)
    (dispatch : Container → Option BackendResponse) (hdrs : Header)
    (s : ReqController) (chosen : Container) (res : BackendResponse)
    (hnd : s.Config.CtrlType = DynamicController →
      ∃ c0, s.Containers[0]? = some c0 ∧ c0.Started = true)
    (hsel : getRandomContainer rand s = some chosen)
    (hdisp : dispatch chosen = some res) :
    serveHTTP cli rand true dispatch hdrs s =
      some (s, ServeResult.success res.status (copyHeader hdrs res.headers)
              res.body)
  ∧ (∀ k v, countPair (copyHeader hdrs res.headers) k v =
       countPair hdrs k v + countPair res.headers k v)
  ∧ (∀ k v, countPair res.headers k v ≤
       countPair (copyHeader hdrs res.headers) k v) := by
  refine ⟨?_, fun k v => countPair_copyHeader res.headers hdrs k v,
          fun k v => ?_⟩
  · by_cases hd : s.Config.CtrlType = DynamicController
    · obtain ⟨c0, h0, hst⟩ := hnd hd
      simp [serveHTTP, dormantCheck, serveAfterCheck, routeStep, hd, h0, hst,
            hsel, hdisp]
    · simp [serveHTTP, dormantCheck, serveAfterCheck, routeStep, hd, hsel,
            hdisp]
  · rw [countPair_copyHeader]
    omega

/-- The backend response used by the C10 witness: status 200, one header
key X-Tag carrying two values, one of which already occurs outbound. -/
def resC10 : BackendResponse :=
  { status := 200, headers := [("X-Tag", ["a", "b"])], body := "ok" }

/-- Witness for C10: on the all-ready pool `poolC2` with outbound headers
already holding ("X-Tag", "a"), a successful dispatch answers with status
200 and headers accumulating every backend pair. -/
theorem dispatch_success_headers_witness :
    serveHTTP cliStub (fun _ => 0) true (fun _ => some resC10)
        [("X-Tag", ["a"])] poolC2 =
      some (poolC2, ServeResult.success resC10.status
        (copyHeader [("X-Tag", ["a"])] resC10.headers) resC10.body) ∧
    countPair (copyHeader [("X-Tag", ["a"])] resC10.headers) "X-Tag" "a" =
      countPair [("X-Tag", ["a"])] "X-Tag" "a" +
        countPair resC10.headers "X-Tag" "a" := by
  have h := dispatch_success_headers cliStub (fun _ => 0)
    (fun _ => some resC10) [("X-Tag", ["a"])] poolC2 containerC2 resC10
    (fun hd => absurd hd (by decide)) (by decide) rfl
  exact ⟨h.1, h.2.1 "X-Tag" "a"⟩

end DockerFpm
